import Mathlib

/-!
Shallow embedding of the MTG-Tracker core pipeline (src/mtgbot) and proofs
about it.

Conventions of the embedding:
* Python `float` prices are modelled as exact rationals (`ℚ`); all price
  comparisons in the source are order comparisons, which the rational model
  reflects faithfully (IEEE rounding of decimal literals is not modelled).
* Python `dict`s are modelled as association lists holding at most one
  binding per key, preserving insertion order (like CPython dicts).
* `datetime.date` values are modelled as integer day indices; Python
  `(a - b).days` becomes integer subtraction.  `date.isoformat()` is
  abstracted to the decimal rendering of the day index (the exact text of
  alert messages is not load-bearing for any property proved here).
* Async I/O layers (aiohttp, aiosqlite, discord) are external collaborators;
  only the pure state transformations the source performs on their results
  are embedded.
-/

/-- Vendors recognised by the bot (models.Vendor). -/
inductive Vendor where
  | cardKingdom
  | coolStuffInc
  | miniatureMarket
  | starCityGames
  | tcgplayer
  | cardhoarder
  | goatbots
  | amazon
  | target
  | bestBuy
  | walmart
  | wizardsStore
  | localStore
  deriving DecidableEq, Repr

/-- Product variant key (models.CardSku). -/
structure CardSku where
  oracleId : String
  productCode : String
  finish : String
  collectorNumber : Option String := none
  setCode : Option String := none
  vendorSku : Option String := none
  deriving DecidableEq, Repr

/-- Normalized view of a retailer listing (models.ListingSnapshot).
`observedAt` stands for the `datetime` timestamp; it plays no role in any
diff logic. -/
structure ListingSnapshot where
  vendor : Vendor
  sku : CardSku
  title : String
  url : String
  price : ℚ
  currency : String
  available : Bool
  observedAt : Int := 0
  metadata : List (String × String) := []
  deriving DecidableEq, Repr

/-- models.InventoryEvent: a classified change between two consecutive
snapshots for the same key.  `eventType` holds the exact Python string. -/
structure InventoryEvent where
  snapshot : ListingSnapshot
  previousSnapshot : Option ListingSnapshot
  eventType : String
  deltaPrice : Option ℚ := none
  deriving DecidableEq, Repr

/-- models.ActionType. -/
inductive ActionType where
  | notify
  | cart
  deriving DecidableEq, Repr

/-- models.WishlistEntry. -/
structure WishlistEntry where
  discordUserId : Nat
  sku : CardSku
  maxPrice : Option ℚ
  actionPreference : ActionType
  tags : List String := []
  preferredVendors : List Vendor := []
  deriving DecidableEq, Repr

/-- models.Decision. -/
structure Decision where
  event : InventoryEvent
  wishlist : WishlistEntry
  action : ActionType
  rationale : String
  deriving DecidableEq, Repr

/-- A watcher's private snapshot cache (`Dict[str, ListingSnapshot]`),
as an insertion-ordered association list with at most one binding per key. -/
abbrev SnapCache : Type := List (String × ListingSnapshot)

/-- Dictionary lookup (`cache.get(key)`). -/
def cacheFind : SnapCache → String → Option ListingSnapshot
  | [], _ => none
  | (k, v) :: rest, key => if k = key then some v else cacheFind rest key

/-- Dictionary store (`cache[key] = snapshot`): replaces an existing binding
in place, otherwise appends, as CPython dicts do. -/
def cacheSet : SnapCache → String → ListingSnapshot → SnapCache
  | [], key, snap => [(key, snap)]
  | (k, v) :: rest, key, snap =>
    if k = key then (k, snap) :: rest else (k, v) :: cacheSet rest key snap

/-- The `event_type` / `delta_price` selection of
CardKingdomWatcher._diff_snapshots (card_kingdom.py lines 142-151):
restock, else availability change, else price change past the inclusive
0.01 threshold, else nothing. -/
def ckClassify (previous snapshot : ListingSnapshot) : Option (String × Option ℚ) :=
  if snapshot.available ∧ ¬ previous.available then
    some ("restock", none)
  else if snapshot.available ≠ previous.available then
    some ("availability_change", none)
  else if |snapshot.price - previous.price| ≥ 1/100 then
    some ("price_change", some (snapshot.price - previous.price))
  else
    none

/-- CardKingdomWatcher._diff_snapshots, body of the per-snapshot loop
(card_kingdom.py lines 127-163): classify one fresh snapshot against the
cache and update the cache. -/
def ckDiffStep (cache : SnapCache) (snapshot : ListingSnapshot) :
    List InventoryEvent × SnapCache :=
  let key := snapshot.sku.oracleId
  match cacheFind cache key with
  | none =>
    ([{ snapshot := snapshot, previousSnapshot := none,
        eventType := "new_listing", deltaPrice := none }],
      cacheSet cache key snapshot)
  | some previous =>
    match ckClassify previous snapshot with
    | none => ([], cacheSet cache key snapshot)
    | some (ty, delta) =>
      ([{ snapshot := snapshot, previousSnapshot := some previous,
          eventType := ty, deltaPrice := delta }],
        cacheSet cache key snapshot)

/-- CardKingdomWatcher._diff_snapshots over a whole fetched batch. -/
def ckDiffSnapshots (cache : SnapCache) (snapshots : List ListingSnapshot) :
    List InventoryEvent × SnapCache :=
  snapshots.foldl
    (fun acc snap =>
      let step := ckDiffStep acc.2 snap
      (acc.1 ++ step.1, step.2))
    ([], cache)

/-- Semantic event kinds named by the specification. -/
inductive EventKind where
  | newListing
  | restock
  | availabilityChange
  | priceChange
  deriving DecidableEq, Repr

/-- Reference diff outcome, written from the specification text of the diff
algorithm: first sighting gives a new listing; otherwise exclusive priority
restock, then availability change, then price change at the inclusive 0.01
boundary, else nothing. -/
def refDiffOutcome (prev : Option ListingSnapshot) (s : ListingSnapshot) :
    Option (EventKind × Option ℚ) :=
  match prev with
  | none => some (EventKind.newListing, none)
  | some p =>
    if s.available ∧ ¬ p.available then some (EventKind.restock, none)
    else if s.available ≠ p.available then some (EventKind.availabilityChange, none)
    else if |s.price - p.price| ≥ 1/100 then
      some (EventKind.priceChange, some (s.price - p.price))
    else none

/-- Card Kingdom's event-type string for each semantic kind. -/
def ckKindName : EventKind → String
  | EventKind.newListing => "new_listing"
  | EventKind.restock => "restock"
  | EventKind.availabilityChange => "availability_change"
  | EventKind.priceChange => "price_change"

/-- The event list the reference outcome prescribes for one snapshot. -/
def refEvents (prev : Option ListingSnapshot) (s : ListingSnapshot) :
    List InventoryEvent :=
  match refDiffOutcome prev s with
  | none => []
  | some (kind, delta) =>
    [{ snapshot := s,
       previousSnapshot := if kind = EventKind.newListing then none else prev,
       eventType := ckKindName kind,
       deltaPrice := delta }]

/-- DecisionEngine's in-memory index (bot.py line 34):
`defaultdict(list)` from oracle id to an insertion-ordered entry bucket,
modelled as an insertion-ordered association list. -/
abbrev WishIndex : Type := List (String × List WishlistEntry)

/-- Raw lookup in the index. -/
def idxFind : WishIndex → String → Option (List WishlistEntry)
  | [], _ => none
  | (k, v) :: rest, key => if k = key then some v else idxFind rest key

/-- Store a bucket under a key (replace in place, else append). -/
def idxStore : WishIndex → String → List WishlistEntry → WishIndex
  | [], key, bucket => [(key, bucket)]
  | (k, v) :: rest, key, bucket =>
    if k = key then (k, bucket) :: rest else (k, v) :: idxStore rest key bucket

/-- `dict.get(key, default)`: reads without ever inserting, returning the
index unchanged. -/
def dictGetD (idx : WishIndex) (key : String) (dflt : List WishlistEntry) :
    List WishlistEntry × WishIndex :=
  ((idxFind idx key).getD dflt, idx)

/-- `defaultdict(list).__getitem__`: on a missing key this INSERTS an empty
bucket (contrast with `dictGetD`).  Used by `register`, not by `evaluate`. -/
def ddItem (idx : WishIndex) (key : String) : List WishlistEntry × WishIndex :=
  match idxFind idx key with
  | some bucket => (bucket, idx)
  | none => ([], idx ++ [(key, [])])

/-- The in-place bucket update of DecisionEngine.register: replace the
first entry with the same owner, else append. -/
def bucketUpsert : List WishlistEntry → WishlistEntry → List WishlistEntry
  | [], w => [w]
  | e :: rest, w =>
    if e.discordUserId = w.discordUserId then w :: rest else e :: bucketUpsert rest w

/-- DecisionEngine.register (bot.py lines 36-44). -/
def register (idx : WishIndex) (w : WishlistEntry) : WishIndex :=
  let key := w.sku.oracleId
  let access := ddItem idx key
  idxStore access.2 key (bucketUpsert access.1 w)

/-- The max-price skip condition of DecisionEngine.evaluate
(`wishlist.max_price is not None and snap.price > wishlist.max_price`). -/
def overMaxPrice (w : WishlistEntry) (price : ℚ) : Bool :=
  match w.maxPrice with
  | none => false
  | some m => decide (price > m)

/-- Rationale rendering; Python's 2-decimal float formatting is abstracted
to the exact rational rendering (the text is not load-bearing). -/
def priceText (p : ℚ) : String := toString p

/-- The Decision yielded for a matching entry (bot.py lines 74-79). -/
def mkDecision (event : InventoryEvent) (w : WishlistEntry) : Decision :=
  { event := event, wishlist := w, action := w.actionPreference,
    rationale := "Price " ++ priceText event.snapshot.price ++ " within threshold" }

/-- The per-bucket loop of DecisionEngine.evaluate (bot.py lines 66-79):
skip on a non-empty vendor allow-list excluding the event's vendor, skip
when the snapshot price strictly exceeds a declared max price, otherwise
yield a Decision; entries are visited in insertion order. -/
def evaluateBucket (event : InventoryEvent) : List WishlistEntry → List Decision
  | [] => []
  | w :: rest =>
    if w.preferredVendors ≠ [] ∧ event.snapshot.vendor ∉ w.preferredVendors then
      evaluateBucket event rest
    else if overMaxPrice w event.snapshot.price then
      evaluateBucket event rest
    else
      mkDecision event w :: evaluateBucket event rest

/-- DecisionEngine.evaluate: bucket fetched with `dict.get(key, [])`. -/
def evaluate (idx : WishIndex) (event : InventoryEvent) : List Decision :=
  evaluateBucket event ((idxFind idx event.snapshot.sku.oracleId).getD [])

/-- DecisionEngine.evaluate with the index state threaded explicitly:
the only index access on the evaluate path is the non-inserting
`dictGetD`. -/
def evaluateS (idx : WishIndex) (event : InventoryEvent) :
    List Decision × WishIndex :=
  let access := dictGetD idx event.snapshot.sku.oracleId []
  (evaluateBucket event access.1, access.2)

/-- The positive matching condition stated by the specification: the entry
matches when its allow-list is empty or contains the event's vendor, and
its max price is absent or the snapshot price is at most it (inclusive). -/
def entryMatches (w : WishlistEntry) (snap : ListingSnapshot) : Bool :=
  (decide (w.preferredVendors = []) || decide (snap.vendor ∈ w.preferredVendors))
    && (match w.maxPrice with
        | none => true
        | some m => decide (snap.price ≤ m))

/-- Sample SKU used by concrete witnesses. -/
def sampleSku : CardSku :=
  { oracleId := "sku-1", productCode := "sku-1", finish := "nonfoil" }

/-- Sample snapshot at a given price and availability. -/
def sampleSnap (price : ℚ) (available : Bool) : ListingSnapshot :=
  { vendor := Vendor.cardKingdom, sku := sampleSku, title := "Sample listing",
    url := "https://example.test/listing", price := price, currency := "USD",
    available := available }

/-- Sample inventory event at a given snapshot price. -/
def eventAt (price : ℚ) : InventoryEvent :=
  { snapshot := sampleSnap price true, previousSnapshot := none,
    eventType := "restock", deltaPrice := none }

/-- Sample entry with a 20.00 max price and no vendor restriction. -/
def entryMax20 : WishlistEntry :=
  { discordUserId := 7, sku := sampleSku, maxPrice := some 20,
    actionPreference := ActionType.notify }

/-- Sample entry with a vendor allow-list excluding Card Kingdom. -/
def entryVendorOnly : WishlistEntry :=
  { discordUserId := 8, sku := sampleSku, maxPrice := none,
    actionPreference := ActionType.cart,
    preferredVendors := [Vendor.tcgplayer] }

/-- models.SetMilestone. -/
inductive SetMilestone where
  | announcement
  | tMinus30
  | tMinus14
  | tMinus7
  | tMinus1
  | releaseDay
  deriving DecidableEq, Repr

/-- models.MagicSet; dates are integer day indices. -/
structure MagicSet where
  setId : String
  code : String
  name : String
  setType : String
  releasedAt : Option Int
  scryfallUri : String
  iconSvgUri : Option String := none
  observedAt : Int := 0
  deriving DecidableEq, Repr

/-- storage.sets.SetState: one mtg_sets row (catalog fields plus the six
one-shot notified flags, which the schema defaults to 0). -/
structure SetState where
  magicSet : MagicSet
  notifiedAnnouncement : Bool := false
  notifiedTMinus30 : Bool := false
  notifiedTMinus14 : Bool := false
  notifiedTMinus7 : Bool := false
  notifiedTMinus1 : Bool := false
  notifiedReleaseDay : Bool := false
  deriving DecidableEq, Repr

/-- models.SetAlert. -/
structure SetAlert where
  magicSet : MagicSet
  milestone : SetMilestone
  scheduledFor : Int
  message : String
  deriving DecidableEq, Repr

/-- date.isoformat(), abstracted to the day-index rendering. -/
def isoDate (d : Int) : String := toString d

/-- The announcement alert built by _alerts_for_state. -/
def announcementAlert (magicSet : MagicSet) (today : Int) : SetAlert :=
  { magicSet := magicSet, milestone := SetMilestone.announcement,
    scheduledFor := today,
    message := magicSet.name ++ " (" ++ magicSet.code.toUpper ++ ") announced." }

/-- A countdown alert built by _alerts_for_state for one milestone pair. -/
def countdownAlert (magicSet : MagicSet) (today releaseDate : Int)
    (milestone : SetMilestone) (label : String) : SetAlert :=
  { magicSet := magicSet, milestone := milestone, scheduledFor := today,
    message := magicSet.name ++ " releases in " ++ label ++ "! ("
      ++ isoDate releaseDate ++ ")" }

/-- The release-day alert built by _alerts_for_state. -/
def releaseDayAlert (magicSet : MagicSet) (today : Int) : SetAlert :=
  { magicSet := magicSet, milestone := SetMilestone.releaseDay,
    scheduledFor := today, message := magicSet.name ++ " releases today!" }

/-- The body of the milestone_pairs loop in _alerts_for_state
(set_schedule.py lines 94-108): skip when already sent, append the
countdown alert exactly when days_until_release equals the threshold. -/
def countdownStep (magicSet : MagicSet) (today releaseDate : Int)
    (acc : List SetAlert) (entry : Int × SetMilestone × Bool × String) :
    List SetAlert :=
  let (threshold, milestone, alreadySent, label) := entry
  if alreadySent then acc
  else if releaseDate - today = threshold then
    acc ++ [countdownAlert magicSet today releaseDate milestone label]
  else acc

/-- SetScheduleService._alerts_for_state (set_schedule.py lines 65-122). -/
def alertsForState (state : SetState) (today : Int) : List SetAlert :=
  let magicSet := state.magicSet
  let releaseAt := magicSet.releasedAt
  let isFutureOrUnknown : Bool :=
    match releaseAt with
    | none => true
    | some r => decide (r ≥ today)
  let alerts0 : List SetAlert :=
    if state.notifiedAnnouncement = false ∧ isFutureOrUnknown = true then
      [announcementAlert magicSet today]
    else []
  match releaseAt with
  | none => alerts0
  | some releaseDate =>
    let milestonePairs : List (Int × SetMilestone × Bool × String) :=
      [(30, SetMilestone.tMinus30, state.notifiedTMinus30, "30 days"),
       (14, SetMilestone.tMinus14, state.notifiedTMinus14, "two weeks"),
       (7, SetMilestone.tMinus7, state.notifiedTMinus7, "one week"),
       (1, SetMilestone.tMinus1, state.notifiedTMinus1, "tomorrow")]
    let alerts1 := milestonePairs.foldl
      (countdownStep magicSet today releaseDate) alerts0
    if state.notifiedReleaseDay = false ∧ releaseDate - today = 0 then
      alerts1 ++ [releaseDayAlert magicSet today]
    else alerts1

/-- SetScheduleService.pending_alerts: concatenate per-state alerts. -/
def pendingAlerts (db : List SetState) (today : Int) : List SetAlert :=
  db.foldl (fun acc state => acc ++ alertsForState state today) []

/-- The one-column update SetRepository.mark_notified performs on the
matched row. -/
def setFlag (state : SetState) : SetMilestone → SetState
  | SetMilestone.announcement => { state with notifiedAnnouncement := true }
  | SetMilestone.tMinus30 => { state with notifiedTMinus30 := true }
  | SetMilestone.tMinus14 => { state with notifiedTMinus14 := true }
  | SetMilestone.tMinus7 => { state with notifiedTMinus7 := true }
  | SetMilestone.tMinus1 => { state with notifiedTMinus1 := true }
  | SetMilestone.releaseDay => { state with notifiedReleaseDay := true }

/-- SetRepository.mark_notified (sets.py lines 118-130):
`UPDATE mtg_sets SET <flag> = 1 WHERE set_id = ?`. -/
def markNotifiedDb (db : List SetState) (setId : String)
    (milestone : SetMilestone) : List SetState :=
  db.map (fun row =>
    if row.magicSet.setId = setId then setFlag row milestone else row)

/-- The milestone flag of a row for each milestone. -/
def milestoneFlag (state : SetState) : SetMilestone → Bool
  | SetMilestone.announcement => state.notifiedAnnouncement
  | SetMilestone.tMinus30 => state.notifiedTMinus30
  | SetMilestone.tMinus14 => state.notifiedTMinus14
  | SetMilestone.tMinus7 => state.notifiedTMinus7
  | SetMilestone.tMinus1 => state.notifiedTMinus1
  | SetMilestone.releaseDay => state.notifiedReleaseDay

/-- All six flags of a row as a tuple. -/
def flagsOf (state : SetState) : Bool × Bool × Bool × Bool × Bool × Bool :=
  (state.notifiedAnnouncement, state.notifiedTMinus30, state.notifiedTMinus14,
   state.notifiedTMinus7, state.notifiedTMinus1, state.notifiedReleaseDay)

/-- The countdown day threshold attached to a milestone kind, when any. -/
def countdownThreshold : SetMilestone → Option Int
  | SetMilestone.tMinus30 => some 30
  | SetMilestone.tMinus14 => some 14
  | SetMilestone.tMinus7 => some 7
  | SetMilestone.tMinus1 => some 1
  | _ => none

/-- services.set_schedule.UpcomingSet. -/
structure UpcomingSet where
  magicSet : MagicSet
  daysUntilRelease : Int
  deriving DecidableEq, Repr

/-- The sort key ordering used by upcoming_sets
(`key=lambda item: (item.days_until_release, item.magic_set.name)`). -/
def upcomingKeyLe (a b : UpcomingSet) : Bool :=
  decide (a.daysUntilRelease < b.daysUntilRelease)
    || (decide (a.daysUntilRelease = b.daysUntilRelease)
        && decide (a.magicSet.name ≤ b.magicSet.name))

/-- SetScheduleService.upcoming_sets (set_schedule.py lines 43-63): keep
states with a known release date whose day delta lies in [0, withinDays],
then stable-sort by (days, name). -/
def upcomingSets (states : List SetState) (withinDays today : Int) :
    List UpcomingSet :=
  let upcoming := states.foldl
    (fun acc state =>
      match state.magicSet.releasedAt with
      | none => acc
      | some release =>
        let delta := release - today
        if delta < 0 ∨ delta > withinDays then acc
        else acc ++ [{ magicSet := state.magicSet, daysUntilRelease := delta }])
    []
  upcoming.mergeSort upcomingKeyLe

/-- Lookup of the mtg_sets row with a given set id. -/
def dbFind : List SetState → String → Option SetState
  | [], _ => none
  | row :: rest, setId =>
    if row.magicSet.setId = setId then some row else dbFind rest setId

/-- SetRepository.upsert_set (sets.py lines 54-90): INSERT a new row (the
schema defaults every notified flag to 0), and ON CONFLICT(set_id) update
only the catalog columns code, name, set_type, released_at, scryfall_uri
and icon_svg_uri — neither the six flags nor observed_at are in the
conflict update list. -/
def upsertSet (db : List SetState) (m : MagicSet) : List SetState :=
  match dbFind db m.setId with
  | some _ =>
    db.map (fun row =>
      if row.magicSet.setId = m.setId then
        { row with magicSet :=
          { setId := row.magicSet.setId
            code := m.code
            name := m.name
            setType := m.setType
            releasedAt := m.releasedAt
            scryfallUri := m.scryfallUri
            iconSvgUri := m.iconSvgUri
            observedAt := row.magicSet.observedAt } }
      else row)
  | none => db ++ [{ magicSet := m }]

/-- SetScheduleService.sync_sets: upsert every catalog item in order. -/
def syncSets (db : List SetState) (items : List MagicSet) : List SetState :=
  items.foldl upsertSet db

/-- The mutable catalog columns of a row, as a tuple. -/
def catalogFields (m : MagicSet) :
    String × String × String × Option Int × String × Option String :=
  (m.code, m.name, m.setType, m.releasedAt, m.scryfallUri, m.iconSvgUri)

/-- Truthiness of the optional release channel id (`if not channel_id`). -/
def channelConfigured (channelId : Option Nat) : Bool :=
  match channelId with
  | none => false
  | some n => decide (n ≠ 0)

/-- MtgDiscordBot.send_set_alerts (discord_bot.py lines 89-102): with no
configured channel or no alerts it returns an empty message list without
sending anything; otherwise it sends one message per alert in order, an
exception from any send propagating out (modelled as `Except.error`).
`send` gives each alert's delivery outcome (`none` = that send raised). -/
def sendSetAlerts (channelId : Option Nat) (send : SetAlert → Option Nat)
    (alerts : List SetAlert) : Except Unit (List Nat) :=
  if channelConfigured channelId = false ∨ alerts = [] then Except.ok []
  else
    alerts.foldlM
      (fun msgs alert =>
        match send alert with
        | none => Except.error ()
        | some msg => Except.ok (msgs ++ [msg]))
      []

/-- The alert-delivery tail of sync_sets_job (bot.py lines 178-183): return
early when no alerts are pending; otherwise call send_set_alerts on the
whole batch and, only if that call returns rather than raising, mark every
alert's milestone as sent. -/
def syncJobDeliverAlerts (channelId : Option Nat) (send : SetAlert → Option Nat)
    (alerts : List SetAlert) (db : List SetState) : List SetState :=
  if alerts = [] then db
  else
    match sendSetAlerts channelId send alerts with
    | Except.error _ => db
    | Except.ok _ =>
      alerts.foldl
        (fun d alert => markNotifiedDb d alert.magicSet.setId alert.milestone) db

/-- Sample catalog item used by concrete witnesses. -/
def sampleSet (setId : String) (releasedAt : Option Int) : MagicSet :=
  { setId := setId, code := "abc", name := "Sample Set", setType := "expansion",
    releasedAt := releasedAt, scryfallUri := "https://example.test/set" }

/-- Sample repository row: release 7 days after day 0, all flags false. -/
def sampleState7 : SetState := { magicSet := sampleSet "set-1" (some 7) }

/-- Sample pending alert for sampleState7's T-minus-7 milestone. -/
def sampleAlert7 : SetAlert :=
  { magicSet := sampleSet "set-1" (some 7), milestone := SetMilestone.tMinus7,
    scheduledFor := 0, message := "Sample Set releases in one week! (7)" }

/-- The event_type / delta_price selection of BigBoxWatcher._diff_snapshot
(big_box.py lines 103-111). -/
def bbClassify (previous snapshot : ListingSnapshot) : Option (String × Option ℚ) :=
  if snapshot.available ∧ ¬ previous.available then
    some ("big_box_restock", none)
  else if snapshot.available ≠ previous.available then
    some ("big_box_availability_change", none)
  else if |snapshot.price - previous.price| ≥ 1/100 then
    some ("big_box_price_change", some (snapshot.price - previous.price))
  else
    none

/-- BigBoxWatcher._diff_snapshot (big_box.py lines 88-124).  Note the cache
key is `snapshot.url`, not the sku's oracle id (big-box snapshots are built
with oracle_id = url in _snapshot_from_html). -/
def bbDiffStep (cache : SnapCache) (snapshot : ListingSnapshot) :
    List InventoryEvent × SnapCache :=
  let key := snapshot.url
  match cacheFind cache key with
  | none =>
    ([{ snapshot := snapshot, previousSnapshot := none,
        eventType := "big_box_listing", deltaPrice := none }],
      cacheSet cache key snapshot)
  | some previous =>
    match bbClassify previous snapshot with
    | none => ([], cacheSet cache key snapshot)
    | some (ty, delta) =>
      ([{ snapshot := snapshot, previousSnapshot := some previous,
          eventType := ty, deltaPrice := delta }],
        cacheSet cache key snapshot)

/-- The event_type / delta_price selection of TcgplayerWatcher._diff_snapshot
(tcgplayer.py lines 175-183). -/
def tcgClassify (previous snapshot : ListingSnapshot) : Option (String × Option ℚ) :=
  if snapshot.available ∧ ¬ previous.available then
    some ("tcgplayer_restock", none)
  else if snapshot.available ≠ previous.available then
    some ("tcgplayer_availability_change", none)
  else if |snapshot.price - previous.price| ≥ 1/100 then
    some ("tcgplayer_price_change", some (snapshot.price - previous.price))
  else
    none

/-- TcgplayerWatcher._diff_snapshot (tcgplayer.py lines 160-196); keyed by
the sku's oracle id. -/
def tcgDiffStep (cache : SnapCache) (snapshot : ListingSnapshot) :
    List InventoryEvent × SnapCache :=
  let key := snapshot.sku.oracleId
  match cacheFind cache key with
  | none =>
    ([{ snapshot := snapshot, previousSnapshot := none,
        eventType := "tcgplayer_listing", deltaPrice := none }],
      cacheSet cache key snapshot)
  | some previous =>
    match tcgClassify previous snapshot with
    | none => ([], cacheSet cache key snapshot)
    | some (ty, delta) =>
      ([{ snapshot := snapshot, previousSnapshot := some previous,
          eventType := ty, deltaPrice := delta }],
        cacheSet cache key snapshot)

/-- The event_type / delta_price selection of the per-product body of
PhoenixLocalStoreWatcher._diff_feed (local_store.py lines 89-101).  The
source guards the price comparison with `snapshot.price is not None and
previous.price is not None`; ListingSnapshot.price is a total float field
(every constructor sets it), so those guards are vacuously true here. -/
def lsClassify (previous snapshot : ListingSnapshot) : Option (String × Option ℚ) :=
  if snapshot.available ∧ ¬ previous.available then
    some ("store_restock", none)
  else if snapshot.available ≠ previous.available then
    some ("store_availability_change", none)
  else if |snapshot.price - previous.price| ≥ 1/100 then
    some ("store_price_change", some (snapshot.price - previous.price))
  else
    none

/-- The per-product diff body of PhoenixLocalStoreWatcher._diff_feed
(local_store.py lines 76-113); keyed by the sku's oracle id. -/
def lsDiffStep (cache : SnapCache) (snapshot : ListingSnapshot) :
    List InventoryEvent × SnapCache :=
  let key := snapshot.sku.oracleId
  match cacheFind cache key with
  | none =>
    ([{ snapshot := snapshot, previousSnapshot := none,
        eventType := "store_listing", deltaPrice := none }],
      cacheSet cache key snapshot)
  | some previous =>
    match lsClassify previous snapshot with
    | none => ([], cacheSet cache key snapshot)
    | some (ty, delta) =>
      ([{ snapshot := snapshot, previousSnapshot := some previous,
          eventType := ty, deltaPrice := delta }],
        cacheSet cache key snapshot)

/-- The semantic kind of each watcher's event_type string. -/
def semanticKind : String → Option EventKind
  | "new_listing" => some EventKind.newListing
  | "restock" => some EventKind.restock
  | "availability_change" => some EventKind.availabilityChange
  | "price_change" => some EventKind.priceChange
  | "big_box_listing" => some EventKind.newListing
  | "big_box_restock" => some EventKind.restock
  | "big_box_availability_change" => some EventKind.availabilityChange
  | "big_box_price_change" => some EventKind.priceChange
  | "tcgplayer_listing" => some EventKind.newListing
  | "tcgplayer_restock" => some EventKind.restock
  | "tcgplayer_availability_change" => some EventKind.availabilityChange
  | "tcgplayer_price_change" => some EventKind.priceChange
  | "store_listing" => some EventKind.newListing
  | "store_restock" => some EventKind.restock
  | "store_availability_change" => some EventKind.availabilityChange
  | "store_price_change" => some EventKind.priceChange
  | _ => none

/-- An event up to the renaming of its kind string: semantic kind plus the
current snapshot, previous snapshot, and signed delta. -/
def eventAbs (e : InventoryEvent) :
    Option EventKind × ListingSnapshot × Option ListingSnapshot × Option ℚ :=
  (semanticKind e.eventType, e.snapshot, e.previousSnapshot, e.deltaPrice)

/-- Sample big-box style snapshot whose oracle id equals its url. -/
def snapUrlKey : ListingSnapshot :=
  { vendor := Vendor.amazon,
    sku := { oracleId := "https://shop.test/p1",
             productCode := "https://shop.test/p1", finish := "any" },
    title := "Sealed box", url := "https://shop.test/p1", price := 10,
    currency := "USD", available := true }

/-- Digit run value, base 10 (the semantics of int/float parsing of a
matched digit group). -/
def digitsVal (ds : List Char) : Nat :=
  ds.foldl (fun acc c => 10 * acc + (c.toNat - 48)) 0

/-- The optional fractional part `(\.\d{1,2})?` of card_kingdom's price
regex, greedy, as a rational to add to the integer part (0 when the
pattern does not continue with a dot and a digit). -/
def ckFracPart : List Char → ℚ
  | '.' :: d1 :: d2 :: _ =>
    if d1.isDigit then
      if d2.isDigit then (digitsVal [d1, d2] : Nat) / 100
      else (digitsVal [d1] : Nat) / 10
    else 0
  | ['.', d1] => if d1.isDigit then (digitsVal [d1] : Nat) / 10 else 0
  | _ => 0

/-- The regex search of card_kingdom._extract_price:
`re.search(r"(\d+(\.\d{1,2})?)", ...)` — leftmost match of a maximal digit
run optionally followed by a dot and one or two fractional digits (greedy),
converted by float() (which cannot fail on such a group). -/
def ckSearchPrice : List Char → Option ℚ
  | [] => none
  | c :: rest =>
    if c.isDigit then
      some ((digitsVal (List.takeWhile Char.isDigit (c :: rest)) : Nat)
        + ckFracPart (List.dropWhile Char.isDigit (c :: rest)))
    else ckSearchPrice rest

/-- card_kingdom._extract_price (card_kingdom.py lines 177-186): falsy
input (None or empty) gives 0.0; otherwise commas are stripped and the
first price-shaped digit group is parsed, 0.0 when none exists. -/
def ckExtractPrice (raw : Option String) : ℚ :=
  match raw with
  | none => 0
  | some s =>
    if s = "" then 0
    else
      match ckSearchPrice (s.data.filter (fun c => c ≠ ',')) with
      | none => 0
      | some v => v

/-- The value float() assigns to a matched big-box price group: integer
digit run `ds`, then optionally one '.' (decimal point) or one ','
(stripped before parsing) and further digits. -/
def bbGroupVal (ds : List Char) : List Char → ℚ
  | '.' :: tail =>
    (digitsVal ds : Nat)
      + (digitsVal (tail.takeWhile Char.isDigit) : Nat)
        / (((10 : Nat) ^ (tail.takeWhile Char.isDigit).length : Nat) : ℚ)
  | ',' :: tail => ((digitsVal (ds ++ tail.takeWhile Char.isDigit) : Nat) : ℚ)
  | _ => ((digitsVal ds : Nat) : ℚ)

/-- The regex search of big_box._extract_price:
`re.search(r"\$(\d+[.,]?\d*)", html)` — leftmost dollar sign followed by a
digit run, optionally one '.' or ',' separator and further digits; the
group then has its commas stripped and is parsed by float(). -/
def bbSearchPrice : List Char → Option ℚ
  | [] => none
  | c :: rest =>
    if c = '$' then
      match rest with
      | [] => none
      | d :: _ =>
        if d.isDigit then
          some (bbGroupVal (rest.takeWhile Char.isDigit)
            (rest.dropWhile Char.isDigit))
        else bbSearchPrice rest
    else bbSearchPrice rest

/-- big_box._extract_price (big_box.py lines 147-154): 0.0 when the page
has no dollar-prefixed digit group. -/
def bbExtractPrice (html : String) : ℚ :=
  match bbSearchPrice html.data with
  | none => 0
  | some v => v

/-- Sample index holding one entry with a negative max price. -/
def entryNegMax : WishlistEntry :=
  { discordUserId := 9, sku := sampleSku, maxPrice := some (-1),
    actionPreference := ActionType.notify }

theorem cacheFind_cacheSet_self (cache : SnapCache) (key : String)
    (snap : ListingSnapshot) :
    cacheFind (cacheSet cache key snap) key = some snap := by
  induction cache with
  | nil => simp [cacheSet, cacheFind]
  | cons hd rest ih =>
    obtain ⟨k, v⟩ := hd
    by_cases hk : k = key
    · simp [cacheSet, cacheFind, hk]
    · simp [cacheSet, cacheFind, hk, ih]

theorem cacheFind_cacheSet_other (cache : SnapCache) (key k2 : String)
    (snap : ListingSnapshot) (hne : k2 ≠ key) :
    cacheFind (cacheSet cache key snap) k2 = cacheFind cache k2 := by
  have hsym : key ≠ k2 := fun h => hne (Eq.symm h)
  induction cache with
  | nil => simp [cacheSet, cacheFind, hsym]
  | cons hd rest ih =>
    obtain ⟨k, v⟩ := hd
    by_cases hk : k = key
    · subst hk
      simp [cacheSet, cacheFind, hsym]
    · simp [cacheSet, cacheFind, hk, ih]

/-- The classification over a known previous snapshot agrees with the
reference outcome, modulo naming the kinds. -/
theorem ckClassify_matches_ref (p s : ListingSnapshot) :
    ckClassify p s
      = Option.map (fun kd => (ckKindName kd.1, kd.2)) (refDiffOutcome (some p) s) := by
  unfold ckClassify refDiffOutcome
  cases hsa : s.available <;> cases hpa : p.available <;>
    by_cases h3 : |s.price - p.price| ≥ 1/100 <;>
      simp [hsa, hpa, h3, ckKindName]

/-- Over a known previous snapshot the reference never produces the
new-listing kind. -/
theorem refDiffOutcome_some_not_new (p s : ListingSnapshot)
    (k : EventKind) (d : Option ℚ)
    (h : refDiffOutcome (some p) s = some (k, d)) : k ≠ EventKind.newListing := by
  cases hsa : s.available <;> cases hpa : p.available <;>
    by_cases h3 : |s.price - p.price| ≥ 1/100 <;>
      simp [refDiffOutcome, hsa, hpa, h3] at h <;> (cases k <;> simp_all)

/-- Claim C1: for every freshly fetched snapshot, the Card Kingdom diff step
behaves exactly as the reference definition — absent key gives one
new-listing event with no previous snapshot and no delta; otherwise at most
one event by exclusive priority (restock, then availability change, then
price change at the inclusive 0.01 boundary); and in every case, including
when no event fires, the cache is updated to the new snapshot at that key
and left unchanged at every other key. -/
theorem ck_diff_step_matches_reference (cache : SnapCache)
    (s : ListingSnapshot) :
    (ckDiffStep cache s).1 = refEvents (cacheFind cache s.sku.oracleId) s
    ∧ cacheFind (ckDiffStep cache s).2 s.sku.oracleId = some s
    ∧ ∀ k, k ≠ s.sku.oracleId →
        cacheFind (ckDiffStep cache s).2 k = cacheFind cache k := by
  have hcache : (ckDiffStep cache s).2 = cacheSet cache s.sku.oracleId s := by
    cases hfind : cacheFind cache s.sku.oracleId with
    | none => simp [ckDiffStep, hfind]
    | some p =>
      cases hcl : ckClassify p s with
      | none => simp [ckDiffStep, hfind, hcl]
      | some td =>
        obtain ⟨ty, delta⟩ := td
        simp [ckDiffStep, hfind, hcl]
  refine ⟨?_, ?_, ?_⟩
  · cases hfind : cacheFind cache s.sku.oracleId with
    | none => simp [ckDiffStep, hfind, refEvents, refDiffOutcome, ckKindName]
    | some p =>
      have hclass := ckClassify_matches_ref p s
      cases href : refDiffOutcome (some p) s with
      | none =>
        rw [href] at hclass
        simp [ckDiffStep, hfind, hclass, refEvents, href]
      | some kd =>
        obtain ⟨k, d⟩ := kd
        rw [href] at hclass
        have hnotnew := refDiffOutcome_some_not_new p s k d href
        simp [ckDiffStep, hfind, hclass, refEvents, href, hnotnew]
  · rw [hcache]
    exact cacheFind_cacheSet_self cache s.sku.oracleId s
  · intro k hk
    rw [hcache]
    exact cacheFind_cacheSet_other cache s.sku.oracleId k s hk

/-- Claim C2: with a cached previous snapshot of identical availability, the
diff step emits a price-change event exactly when the absolute price
difference is at least 0.01 (inclusive boundary), with delta equal to the
signed difference of new minus previous price; otherwise no event. -/
theorem ck_price_change_boundary (cache : SnapCache) (p s : ListingSnapshot)
    (hfind : cacheFind cache s.sku.oracleId = some p)
    (hav : s.available = p.available) :
    (ckDiffStep cache s).1 =
      if |s.price - p.price| ≥ 1/100 then
        [{ snapshot := s, previousSnapshot := some p,
           eventType := "price_change", deltaPrice := some (s.price - p.price) }]
      else [] := by
  by_cases h3 : (100 : ℚ)⁻¹ ≤ |s.price - p.price| <;>
    simp [ckDiffStep, hfind, ckClassify, hav, h3]

/-- Witness for C2: previous price 10.00; a new price of 10.01 (delta
exactly +0.01) fires a price-change event, while a new price of 10.009
(delta 0.009) fires nothing. -/
theorem ck_price_change_boundary_witness :
    (cacheFind [("sku-1", sampleSnap 10 true)] (sampleSnap (1001/100) true).sku.oracleId
        = some (sampleSnap 10 true)
      ∧ (sampleSnap (1001/100) true).available = (sampleSnap 10 true).available
      ∧ (ckDiffStep [("sku-1", sampleSnap 10 true)] (sampleSnap (1001/100) true)).1
        = [{ snapshot := sampleSnap (1001/100) true,
             previousSnapshot := some (sampleSnap 10 true),
             eventType := "price_change", deltaPrice := some (1/100) }])
    ∧ (ckDiffStep [("sku-1", sampleSnap 10 true)] (sampleSnap (10009/1000) true)).1 = [] := by
  have h1 := ck_price_change_boundary [("sku-1", sampleSnap 10 true)]
    (sampleSnap 10 true) (sampleSnap (1001/100) true) rfl rfl
  have h2 := ck_price_change_boundary [("sku-1", sampleSnap 10 true)]
    (sampleSnap 10 true) (sampleSnap (10009/1000) true) rfl rfl
  refine ⟨⟨rfl, rfl, ?_⟩, ?_⟩
  · rw [h1]
    norm_num [sampleSnap]
    exact le_abs_self _
  · rw [h2]
    norm_num [sampleSnap]
    rw [abs_of_nonneg (by norm_num : (0 : ℚ) ≤ 9/1000)]
    norm_num

/-- evaluateBucket yields exactly the filterMap of the positive matching
condition over the bucket, in order. -/
theorem evaluateBucket_filterMap (event : InventoryEvent)
    (bucket : List WishlistEntry) :
    evaluateBucket event bucket
      = bucket.filterMap
          (fun w => if entryMatches w event.snapshot then
            some (mkDecision event w) else none) := by
  induction bucket with
  | nil => simp [evaluateBucket]
  | cons w rest ih =>
    by_cases hv : w.preferredVendors ≠ [] ∧ event.snapshot.vendor ∉ w.preferredVendors
    · have hm : entryMatches w event.snapshot = false := by
        unfold entryMatches
        simp only [Bool.and_eq_false_iff, Bool.or_eq_false_iff]
        left
        exact ⟨by simpa using hv.1, by simpa using hv.2⟩
      simp [evaluateBucket, hv, hm, ih]
    · cases hmp : w.maxPrice with
      | none =>
        have hover : overMaxPrice w event.snapshot.price = false := by
          simp [overMaxPrice, hmp]
        have hm : entryMatches w event.snapshot = true := by
          unfold entryMatches
          rcases not_and_or.mp hv with h | h
          · simp [hmp, not_not.mp h]
          · simp [hmp, not_not.mp h]
        simp [evaluateBucket, hv, hover, hm, ih]
      | some m =>
        by_cases hgt : event.snapshot.price > m
        · have hover : overMaxPrice w event.snapshot.price = true := by
            simp [overMaxPrice, hmp, hgt]
          have hm : entryMatches w event.snapshot = false := by
            unfold entryMatches
            simp [hmp, not_le.mpr hgt]
          simp [evaluateBucket, hv, hover, hm, ih]
        · have hover : overMaxPrice w event.snapshot.price = false := by
            simp [overMaxPrice, hmp, hgt]
          have hm : entryMatches w event.snapshot = true := by
            unfold entryMatches
            rcases not_and_or.mp hv with h | h
            · simp [hmp, not_not.mp h, not_lt.mp hgt]
            · simp [hmp, not_not.mp h, not_lt.mp hgt]
          simp [evaluateBucket, hv, hover, hm, ih]

/-- Claim C3: evaluate yields, in insertion order, exactly one Decision per
bucket entry whose vendor allow-list is empty or contains the event's
vendor and whose max price is absent or at least the snapshot price
(inclusive boundary), each Decision carrying that entry's preferred action;
concretely, a 20.00 max price matches price 20.00 and rejects 20.01, and a
non-empty allow-list excluding the vendor never yields a Decision at any
price. -/
theorem evaluate_fanout_characterization :
    (∀ (idx : WishIndex) (event : InventoryEvent),
        evaluate idx event
          = ((idxFind idx event.snapshot.sku.oracleId).getD []).filterMap
              (fun w => if entryMatches w event.snapshot then
                some (mkDecision event w) else none))
    ∧ (∀ (w : WishlistEntry) (snap : ListingSnapshot) (m : ℚ),
        w.maxPrice = some m →
          (entryMatches w snap = true
            ↔ ((w.preferredVendors = [] ∨ snap.vendor ∈ w.preferredVendors)
                ∧ snap.price ≤ m)))
    ∧ evaluate [("sku-1", [entryMax20])] (eventAt 20)
        = [mkDecision (eventAt 20) entryMax20]
    ∧ evaluate [("sku-1", [entryMax20])] (eventAt (2001/100)) = []
    ∧ ∀ price : ℚ, evaluate [("sku-1", [entryVendorOnly])] (eventAt price) = [] := by
  refine ⟨?_, ?_, ?_, ?_, ?_⟩
  · intro idx event
    exact evaluateBucket_filterMap event _
  · intro w snap m hm
    unfold entryMatches
    simp [hm]
  · norm_num [evaluate, evaluateBucket, idxFind, eventAt, sampleSnap, sampleSku,
      entryMax20, overMaxPrice]
  · norm_num [evaluate, evaluateBucket, idxFind, eventAt, sampleSnap, sampleSku,
      entryMax20, overMaxPrice]
  · intro price
    simp [evaluate, evaluateBucket, idxFind, eventAt, sampleSnap, sampleSku,
      entryVendorOnly]

/-- Claim C9 (implicit): evaluate never mutates the wishlist index — the
state-threaded evaluate returns the index unchanged (its only access is the
non-inserting `dict.get`), so looking up an unknown key inserts no empty
bucket, every key maps to the same bucket before and after, and the
decision list is the pure function `evaluate` of the event and index. -/
theorem evaluate_preserves_index (idx : WishIndex) (event : InventoryEvent) :
    (evaluateS idx event).2 = idx
    ∧ (evaluateS idx event).1 = evaluate idx event
    ∧ ∀ k, idxFind (evaluateS idx event).2 k = idxFind idx k := by
  exact ⟨rfl, rfl, fun _ => rfl⟩

/-- Any alert produced by the milestone_pairs foldl either came from the
accumulator or is the countdown alert of some pair whose sent flag is false
and whose threshold equals days_until_release exactly. -/
theorem mem_countdown_foldl (ms : MagicSet) (today rd : Int)
    (pairs : List (Int × SetMilestone × Bool × String)) (acc : List SetAlert)
    (a : SetAlert)
    (ha : a ∈ pairs.foldl (countdownStep ms today rd) acc) :
    a ∈ acc ∨ ∃ e, e ∈ pairs ∧ e.2.2.1 = false ∧ rd - today = e.1
      ∧ a = countdownAlert ms today rd e.2.1 e.2.2.2 := by
  induction pairs generalizing acc with
  | nil => exact Or.inl ha
  | cons p rest ih =>
    rw [List.foldl_cons] at ha
    rcases ih _ ha with hstep | ⟨e, he, hsent, hd, hae⟩
    · obtain ⟨t, mil, sent, label⟩ := p
      by_cases hs : sent = true
      · rw [countdownStep, hs] at hstep
        simp at hstep
        exact Or.inl hstep
      · by_cases hc : rd - today = t
        · rw [countdownStep] at hstep
          simp [hs, hc] at hstep
          rcases hstep with hacc | haeq
          · exact Or.inl hacc
          · refine Or.inr ⟨(t, mil, sent, label), by simp, ?_, hc, haeq⟩
            simpa using hs
        · rw [countdownStep] at hstep
          simp [hs, hc] at hstep
          exact Or.inl hstep
    · exact Or.inr ⟨e, List.mem_cons_of_mem _ he, hsent, hd, hae⟩

/-- If every pair's milestone carries its own threshold and the accumulator
holds no countdown alerts, a countdown alert in the foldl output pins
days_until_release to its threshold. -/
theorem countdown_mem_days (ms : MagicSet) (d r : Int)
    (pairs : List (Int × SetMilestone × Bool × String)) (acc : List SetAlert)
    (a : SetAlert) (n : Int)
    (hpairs : ∀ e ∈ pairs, countdownThreshold e.2.1 = some e.1)
    (hacc : ∀ b ∈ acc, countdownThreshold b.milestone = none)
    (ha : a ∈ pairs.foldl (countdownStep ms d r) acc)
    (hn : countdownThreshold a.milestone = some n) :
    r - d = n := by
  rcases mem_countdown_foldl ms d r pairs acc a ha with hin | ⟨e, he, hsent, hd, hae⟩
  · rw [hacc a hin] at hn
    cases hn
  · rw [hae] at hn
    rw [show (countdownAlert ms d r e.2.1 e.2.2.2).milestone = e.2.1 from rfl] at hn
    rw [hpairs e he] at hn
    injection hn with hn
    rw [← hn]
    exact hd

/-- A countdown alert of threshold n is emitted only when the release date
is exactly n days after today. -/
theorem countdown_needs_exact_days (st : SetState) (d : Int) (a : SetAlert) (n : Int)
    (ha : a ∈ alertsForState st d) (hn : countdownThreshold a.milestone = some n) :
    st.magicSet.releasedAt = some (d + n) := by
  cases hr : st.magicSet.releasedAt with
  | none =>
    simp only [alertsForState, hr] at ha
    by_cases h1 : st.notifiedAnnouncement = false ∧ True
    · simp [h1] at ha
      rw [ha] at hn
      simp [announcementAlert, countdownThreshold] at hn
    · simp [h1] at ha
  | some r =>
    simp only [alertsForState, hr] at ha
    have hpairs : ∀ e ∈ [((30 : Int), SetMilestone.tMinus30, st.notifiedTMinus30, "30 days"),
        (14, SetMilestone.tMinus14, st.notifiedTMinus14, "two weeks"),
        (7, SetMilestone.tMinus7, st.notifiedTMinus7, "one week"),
        (1, SetMilestone.tMinus1, st.notifiedTMinus1, "tomorrow")],
        countdownThreshold e.2.1 = some e.1 := by
      intro e he
      simp at he
      rcases he with he | he | he | he <;> rw [he] <;> rfl
    have hacc : ∀ b ∈ (if st.notifiedAnnouncement = false ∧ (decide (r ≥ d)) = true
        then [announcementAlert st.magicSet d] else []),
        countdownThreshold b.milestone = none := by
      intro b hb
      by_cases h1 : st.notifiedAnnouncement = false ∧ (decide (r ≥ d)) = true
      · rw [if_pos h1] at hb
        simp at hb
        rw [hb]
        rfl
      · rw [if_neg h1] at hb
        cases hb
    have hdays : r - d = n → some r = some (d + n) := by
      intro hrd
      congr 1
      omega
    by_cases hrd : st.notifiedReleaseDay = false ∧ r - d = 0
    · rw [if_pos hrd] at ha
      rcases List.mem_append.mp ha with ha2 | ha2
      · exact hdays (countdown_mem_days _ _ _ _ _ _ _ hpairs hacc ha2 hn)
      · simp at ha2
        rw [ha2] at hn
        simp [releaseDayAlert, countdownThreshold] at hn
    · rw [if_neg hrd] at ha
      exact hdays (countdown_mem_days _ _ _ _ _ _ _ hpairs hacc ha hn)

/-- Claim C4: a tracked product released exactly 7 days after today with
all six flags false yields exactly the T-minus-7 countdown alert plus,
independently, the announcement alert; any countdown alert of threshold n
fires only when days_until_release equals n exactly; and once mark_sent
sets the T-minus-7 flag, re-invoking on the same day yields no further
alert for that milestone (only the announcement remains). -/
theorem t_minus_7_single_countdown (st : SetState) (today : Int)
    (hflags : flagsOf st = (false, false, false, false, false, false))
    (hrel : st.magicSet.releasedAt = some (today + 7)) :
    alertsForState st today
      = [announcementAlert st.magicSet today,
         countdownAlert st.magicSet today (today + 7) SetMilestone.tMinus7 "one week"]
    ∧ (∀ (st2 : SetState) (d : Int) (a : SetAlert) (n : Int),
        a ∈ alertsForState st2 d → countdownThreshold a.milestone = some n →
          st2.magicSet.releasedAt = some (d + n))
    ∧ alertsForState (setFlag st SetMilestone.tMinus7) today
      = [announcementAlert st.magicSet today] := by
  simp only [flagsOf, Prod.mk.injEq] at hflags
  obtain ⟨h1, h2, h3, h4, h5, h6⟩ := hflags
  have e7 : today + 7 - today = (7 : Int) := by omega
  have hge : today + 7 ≥ today := by omega
  refine ⟨?_, fun st2 d a n ha hn => countdown_needs_exact_days st2 d a n ha hn, ?_⟩
  · simp [alertsForState, hrel, h1, h2, h3, h4, h5, h6, countdownStep, e7, hge]
  · simp [alertsForState, setFlag, hrel, h1, h2, h3, h4, h5, h6, countdownStep, e7, hge]

/-- Witness for C4 at a concrete product released on day 7 seen from day 0. -/
theorem t_minus_7_single_countdown_witness :
    flagsOf sampleState7 = (false, false, false, false, false, false)
    ∧ sampleState7.magicSet.releasedAt = some (0 + 7)
    ∧ alertsForState sampleState7 0
      = [announcementAlert sampleState7.magicSet 0,
         countdownAlert sampleState7.magicSet 0 (0 + 7) SetMilestone.tMinus7 "one week"]
    ∧ alertsForState (setFlag sampleState7 SetMilestone.tMinus7) 0
      = [announcementAlert sampleState7.magicSet 0] := by
  have h := t_minus_7_single_countdown sampleState7 0 (by decide) (by decide)
  exact ⟨by decide, by decide, h.1, h.2.2⟩

/-- Claim C5 counterexample: with the release channel unconfigured,
send_set_alerts returns an empty message list having delivered nothing,
yet the sync job still advances the pending alert's milestone flag from
false to true — the flag does not stay unset when nothing is delivered. -/
theorem alert_marked_despite_no_delivery :
    sendSetAlerts none (fun _ => none) [sampleAlert7] = Except.ok []
    ∧ milestoneFlag sampleState7 SetMilestone.tMinus7 = false
    ∧ syncJobDeliverAlerts none (fun _ => none) [sampleAlert7] [sampleState7]
      = [setFlag sampleState7 SetMilestone.tMinus7]
    ∧ milestoneFlag (setFlag sampleState7 SetMilestone.tMinus7) SetMilestone.tMinus7
      = true := by
  exact ⟨rfl, rfl, by decide, rfl⟩

/-- Claim C5 (amended): milestone flags advance exactly when
send_set_alerts returns without raising — an exception during sending
leaves every flag unset, so the alert is recomputed on the next cycle
(at-least-once); but a successful return also covers the case where the
release channel is unconfigured and nothing at all is delivered, and the
flags are advanced regardless. -/
theorem alerts_marked_iff_send_returns (channelId : Option Nat)
    (send : SetAlert → Option Nat) (alerts : List SetAlert)
    (db : List SetState) (hne : alerts ≠ []) :
    (∀ u, sendSetAlerts channelId send alerts = Except.error u →
        syncJobDeliverAlerts channelId send alerts db = db)
    ∧ (∀ msgs, sendSetAlerts channelId send alerts = Except.ok msgs →
        syncJobDeliverAlerts channelId send alerts db
          = alerts.foldl
              (fun d alert => markNotifiedDb d alert.magicSet.setId alert.milestone)
              db)
    ∧ (channelConfigured channelId = false →
        sendSetAlerts channelId send alerts = Except.ok []) := by
  refine ⟨?_, ?_, ?_⟩
  · intro u hu
    simp [syncJobDeliverAlerts, hne, hu]
  · intro msgs hm
    simp [syncJobDeliverAlerts, hne, hm]
  · intro hc
    simp [sendSetAlerts, hc]

/-- Witness for the amended C5 at a concrete configured channel whose send
succeeds: the pending alert's milestone is marked. -/
theorem alerts_marked_iff_send_returns_witness :
    ([sampleAlert7] ≠ ([] : List SetAlert))
    ∧ syncJobDeliverAlerts (some 5) (fun _ => some 1) [sampleAlert7] [sampleState7]
      = [sampleAlert7].foldl
          (fun d alert => markNotifiedDb d alert.magicSet.setId alert.milestone)
          [sampleState7] := by
  refine ⟨by decide, ?_⟩
  exact (alerts_marked_iff_send_returns (some 5) (fun _ => some 1) [sampleAlert7]
    [sampleState7] (by decide)).2.1 [1] rfl

/-- The (days, name) sort key order is transitive. -/
theorem upcomingKeyLe_trans (a b c : UpcomingSet)
    (hab : upcomingKeyLe a b = true) (hbc : upcomingKeyLe b c = true) :
    upcomingKeyLe a c = true := by
  simp only [upcomingKeyLe, Bool.or_eq_true, Bool.and_eq_true,
    decide_eq_true_eq] at hab hbc ⊢
  rcases hab with h1 | ⟨h1, h1n⟩ <;> rcases hbc with h2 | ⟨h2, h2n⟩
  · exact Or.inl (lt_trans h1 h2)
  · exact Or.inl (h2 ▸ h1)
  · exact Or.inl (h1 ▸ h2)
  · exact Or.inr ⟨h1.trans h2, le_trans h1n h2n⟩

/-- The (days, name) sort key order is total. -/
theorem upcomingKeyLe_total (a b : UpcomingSet) :
    (upcomingKeyLe a b || upcomingKeyLe b a) = true := by
  simp only [upcomingKeyLe, Bool.or_eq_true, Bool.and_eq_true,
    decide_eq_true_eq]
  rcases lt_trichotomy a.daysUntilRelease b.daysUntilRelease with h | h | h
  · exact Or.inl (Or.inl h)
  · rcases le_total a.magicSet.name b.magicSet.name with hn | hn
    · exact Or.inl (Or.inr ⟨h, hn⟩)
    · exact Or.inr (Or.inr ⟨h.symm, hn⟩)
  · exact Or.inr (Or.inl h)

/-- The accumulation loop of upcoming_sets equals a filterMap of the
in-window condition over the states, in order. -/
theorem upcoming_foldl_eq (today withinDays : Int) (states : List SetState)
    (acc : List UpcomingSet) :
    states.foldl
      (fun acc state =>
        match state.magicSet.releasedAt with
        | none => acc
        | some release =>
          if release - today < 0 ∨ release - today > withinDays then acc
          else acc ++ [{ magicSet := state.magicSet,
                         daysUntilRelease := release - today }])
      acc
    = acc ++ states.filterMap
        (fun state =>
          match state.magicSet.releasedAt with
          | none => none
          | some release =>
            if release - today < 0 ∨ release - today > withinDays then none
            else some { magicSet := state.magicSet,
                        daysUntilRelease := release - today }) := by
  induction states generalizing acc with
  | nil => simp
  | cons st rest ih =>
    rw [List.foldl_cons, List.filterMap_cons]
    cases hr : st.magicSet.releasedAt with
    | none =>
      simp only [hr]
      exact ih acc
    | some release =>
      simp only [hr]
      by_cases hc : release - today < 0 ∨ release - today > withinDays
      · rw [if_pos hc, if_pos hc]
        exact ih acc
      · rw [if_neg hc, if_neg hc]
        have h2 := ih (acc ++ [⟨st.magicSet, release - today⟩])
        rw [h2]
        simp

/-- Claim C6: upcoming_sets is a pure read returning exactly the tracked
products with a known release date whose days-until-release lies in
[0, within_days] (past releases excluded), sorted ascending by
days-until-release with the set name as tie-break. -/
theorem upcoming_sets_pure_filter_sorted (states : List SetState)
    (withinDays today : Int) :
    ((upcomingSets states withinDays today).Perm
      (states.filterMap (fun state =>
        match state.magicSet.releasedAt with
        | none => none
        | some release =>
          if release - today < 0 ∨ release - today > withinDays then none
          else some ⟨state.magicSet, release - today⟩)))
    ∧ (∀ u, u ∈ upcomingSets states withinDays today ↔
        ∃ st ∈ states, ∃ r, st.magicSet.releasedAt = some r
          ∧ 0 ≤ r - today ∧ r - today ≤ withinDays
          ∧ u = ⟨st.magicSet, r - today⟩)
    ∧ List.Pairwise (fun a b =>
        a.daysUntilRelease < b.daysUntilRelease
        ∨ (a.daysUntilRelease = b.daysUntilRelease
            ∧ a.magicSet.name ≤ b.magicSet.name))
      (upcomingSets states withinDays today) := by
  have hfold := upcoming_foldl_eq today withinDays states []
  have hperm : (upcomingSets states withinDays today).Perm
      (states.filterMap (fun state =>
        match state.magicSet.releasedAt with
        | none => none
        | some release =>
          if release - today < 0 ∨ release - today > withinDays then none
          else some ⟨state.magicSet, release - today⟩)) := by
    simp only [upcomingSets]
    rw [hfold]
    simpa using List.mergeSort_perm _ upcomingKeyLe
  refine ⟨hperm, ?_, ?_⟩
  · intro u
    rw [hperm.mem_iff, List.mem_filterMap]
    constructor
    · rintro ⟨st, hst, hf⟩
      refine ⟨st, hst, ?_⟩
      cases hr : st.magicSet.releasedAt with
      | none =>
        simp only [hr] at hf
        cases hf
      | some r =>
        simp only [hr] at hf
        by_cases hc : r - today < 0 ∨ r - today > withinDays
        · rw [if_pos hc] at hf
          cases hf
        · rw [if_neg hc] at hf
          refine ⟨r, rfl, by omega, by omega, ?_⟩
          injection hf with hf
          exact hf.symm
    · rintro ⟨st, hst, r, hr, h0, hw, hu⟩
      refine ⟨st, hst, ?_⟩
      simp only [hr]
      rw [if_neg (show ¬ (r - today < 0 ∨ r - today > withinDays) by omega), hu]
  · have hs := @List.sorted_mergeSort UpcomingSet upcomingKeyLe
      upcomingKeyLe_trans upcomingKeyLe_total
      (states.foldl (fun acc state =>
        match state.magicSet.releasedAt with
        | none => acc
        | some release =>
          if release - today < 0 ∨ release - today > withinDays then acc
          else acc ++ [⟨state.magicSet, release - today⟩]) [])
    have heq : upcomingSets states withinDays today
        = (states.foldl (fun acc state =>
            match state.magicSet.releasedAt with
            | none => acc
            | some release =>
              if release - today < 0 ∨ release - today > withinDays then acc
              else acc ++ [⟨state.magicSet, release - today⟩]) []).mergeSort
          upcomingKeyLe := rfl
    rw [heq]
    refine hs.imp ?_
    intro a b hab
    simpa [upcomingKeyLe] using hab

/-- A found row carries the set id it was found under. -/
theorem dbFind_setId (db : List SetState) (sid : String) (row : SetState)
    (h : dbFind db sid = some row) : row.magicSet.setId = sid := by
  induction db with
  | nil => cases h
  | cons r rest ih =>
    by_cases hk : r.magicSet.setId = sid
    · simp only [dbFind, if_pos hk] at h
      injection h with h
      rw [← h]
      exact hk
    · simp only [dbFind, if_neg hk] at h
      exact ih h

/-- dbFind commutes with a row map that preserves set ids. -/
theorem dbFind_map_preserving (f : SetState → SetState)
    (hf : ∀ row, (f row).magicSet.setId = row.magicSet.setId)
    (db : List SetState) (sid : String) :
    dbFind (db.map f) sid = (dbFind db sid).map f := by
  induction db with
  | nil => rfl
  | cons r rest ih =>
    by_cases hk : r.magicSet.setId = sid
    · simp only [List.map_cons, dbFind, hf, if_pos hk]
      rfl
    · simp only [List.map_cons, dbFind, hf, if_neg hk]
      exact ih

/-- A row found in the prefix is still found after appending rows. -/
theorem dbFind_append_found (db l2 : List SetState) (sid : String) (row : SetState)
    (h : dbFind db sid = some row) : dbFind (db ++ l2) sid = some row := by
  induction db with
  | nil => cases h
  | cons r rest ih =>
    by_cases hk : r.magicSet.setId = sid
    · simp only [dbFind, if_pos hk] at h
      simp only [List.cons_append, dbFind, if_pos hk]
      exact h
    · simp only [dbFind, if_neg hk] at h
      simp only [List.cons_append, dbFind, if_neg hk]
      exact ih h

/-- Lookup falls through to the appended rows when the prefix misses. -/
theorem dbFind_append_none (db l2 : List SetState) (sid : String)
    (h : dbFind db sid = none) : dbFind (db ++ l2) sid = dbFind l2 sid := by
  induction db with
  | nil => rfl
  | cons r rest ih =>
    by_cases hk : r.magicSet.setId = sid
    · simp only [dbFind, if_pos hk] at h
      cases h
    · simp only [dbFind, if_neg hk] at h
      simp only [List.cons_append, dbFind, if_neg hk]
      exact ih h

/-- One upsert leaves the flags of every existing row unchanged. -/
theorem upsertSet_preserves_flags (db : List SetState) (m : MagicSet)
    (sid : String) (row : SetState) (h : dbFind db sid = some row) :
    ∃ row2, dbFind (upsertSet db m) sid = some row2
      ∧ flagsOf row2 = flagsOf row := by
  unfold upsertSet
  cases hm : dbFind db m.setId with
  | some existing =>
    rw [dbFind_map_preserving _
      (fun r => by by_cases hk : r.magicSet.setId = m.setId <;> simp [hk]) db sid]
    rw [h]
    refine ⟨_, rfl, ?_⟩
    by_cases hk : row.magicSet.setId = m.setId <;> simp [flagsOf, hk]
  | none =>
    exact ⟨row, dbFind_append_found db _ sid row h, rfl⟩

/-- A whole sync leaves the flags of every pre-existing row unchanged. -/
theorem syncSets_preserves_flags (items : List MagicSet) (db : List SetState)
    (sid : String) (row : SetState) (h : dbFind db sid = some row) :
    ∃ row2, dbFind (syncSets db items) sid = some row2
      ∧ flagsOf row2 = flagsOf row := by
  induction items generalizing db row with
  | nil => exact ⟨row, h, rfl⟩
  | cons m rest ih =>
    obtain ⟨row1, h1, hf1⟩ := upsertSet_preserves_flags db m sid row h
    obtain ⟨row2, h2, hf2⟩ := ih (upsertSet db m) row1 h1
    exact ⟨row2, by simpa [syncSets] using h2, hf2.trans hf1⟩

/-- After an upsert, the row keyed by the item's set id carries exactly the
item's catalog fields (last writer wins). -/
theorem upsertSet_catalog (db : List SetState) (m : MagicSet) :
    ∃ row3, dbFind (upsertSet db m) m.setId = some row3
      ∧ catalogFields row3.magicSet = catalogFields m := by
  unfold upsertSet
  cases hm : dbFind db m.setId with
  | some existing =>
    rw [dbFind_map_preserving _
      (fun r => by by_cases hk : r.magicSet.setId = m.setId <;> simp [hk]) db m.setId]
    rw [hm]
    refine ⟨_, rfl, ?_⟩
    have hid := dbFind_setId db m.setId existing hm
    simp [catalogFields, hid]
  | none =>
    refine ⟨{ magicSet := m }, ?_, rfl⟩
    rw [dbFind_append_none db _ m.setId hm]
    simp [dbFind]

/-- Sample row whose T-minus-7 flag is already set. -/
def flaggedRow : SetState :=
  { magicSet := sampleSet "set-1" (some 7), notifiedTMinus7 := true }

/-- Sample catalog item renaming set-1 (stale/overlapping sync data). -/
def renamedSet : MagicSet :=
  { sampleSet "set-1" (some 9) with name := "Renamed Set" }

/-- Claim C8: sync is an upsert keyed by the durable set id that never
modifies any of the six notified flags — repeated syncs with overlapping or
stale data leave every flag exactly as it was — while the mutable catalog
fields (code, name, set type, release date, URIs) take the last writer's
values. -/
theorem sync_upsert_flags_frame (db : List SetState) (items : List MagicSet)
    (sid : String) (row : SetState) (h : dbFind db sid = some row) :
    (∃ row2, dbFind (syncSets db items) sid = some row2
      ∧ flagsOf row2 = flagsOf row)
    ∧ ∀ (db2 : List SetState) (m : MagicSet),
        ∃ row3, dbFind (upsertSet db2 m) m.setId = some row3
          ∧ catalogFields row3.magicSet = catalogFields m :=
  ⟨syncSets_preserves_flags items db sid row h,
   fun db2 m => upsertSet_catalog db2 m⟩

/-- Witness for C8: syncing the same renamed item twice over a row with its
T-minus-7 flag set keeps that flag set. -/
theorem sync_upsert_flags_frame_witness :
    dbFind [flaggedRow] "set-1" = some flaggedRow
    ∧ (∃ row2, dbFind (syncSets [flaggedRow] [renamedSet, renamedSet]) "set-1"
        = some row2 ∧ flagsOf row2 = flagsOf flaggedRow) := by
  refine ⟨by decide, ?_⟩
  exact (sync_upsert_flags_frame [flaggedRow] [renamedSet, renamedSet] "set-1"
    flaggedRow (by decide)).1

/-- Claim C7 (amended): the TCGplayer and local-store diff steps agree with
the Card Kingdom step for every cache state and snapshot — same events up
to the semantic renaming of the kind strings (same snapshots, same delta)
and the same cache update — and the big-box step agrees whenever the
snapshot's url equals its sku's oracle id, which holds for every snapshot
the big-box watcher builds (it sets oracle_id = url); big_box keys its
cache by snapshot.url rather than by the oracle id. -/
theorem watchers_diff_equivalent (cache : SnapCache) (s : ListingSnapshot) :
    ((tcgDiffStep cache s).1.map eventAbs = (ckDiffStep cache s).1.map eventAbs
      ∧ (tcgDiffStep cache s).2 = (ckDiffStep cache s).2)
    ∧ ((lsDiffStep cache s).1.map eventAbs = (ckDiffStep cache s).1.map eventAbs
      ∧ (lsDiffStep cache s).2 = (ckDiffStep cache s).2)
    ∧ (s.url = s.sku.oracleId →
        (bbDiffStep cache s).1.map eventAbs = (ckDiffStep cache s).1.map eventAbs
        ∧ (bbDiffStep cache s).2 = (ckDiffStep cache s).2) := by
  have main : ∀ (classify : ListingSnapshot → ListingSnapshot → Option (String × Option ℚ))
      (newName : String),
      (∀ p, (classify p s).map (fun td => (semanticKind td.1, td.2))
          = (ckClassify p s).map (fun td => (semanticKind td.1, td.2))) →
      semanticKind newName = some EventKind.newListing →
      ∀ (step : List InventoryEvent × SnapCache),
        step = (match cacheFind cache s.sku.oracleId with
          | none =>
            ([{ snapshot := s, previousSnapshot := none,
                eventType := newName, deltaPrice := none }],
              cacheSet cache s.sku.oracleId s)
          | some previous =>
            match classify previous s with
            | none => ([], cacheSet cache s.sku.oracleId s)
            | some (ty, delta) =>
              ([{ snapshot := s, previousSnapshot := some previous,
                  eventType := ty, deltaPrice := delta }],
                cacheSet cache s.sku.oracleId s)) →
        step.1.map eventAbs = (ckDiffStep cache s).1.map eventAbs
          ∧ step.2 = (ckDiffStep cache s).2 := by
    intro classify newName hcl hnew step hstep
    subst hstep
    cases hfind : cacheFind cache s.sku.oracleId with
    | none =>
      simp [ckDiffStep, hfind, eventAbs, hnew,
        show semanticKind "new_listing" = some EventKind.newListing from rfl]
    | some p =>
      have h := hcl p
      cases hck : ckClassify p s with
      | none =>
        rw [hck] at h
        simp only [Option.map_none'] at h
        cases hcls : classify p s with
        | none => simp [ckDiffStep, hfind, hck, hcls]
        | some td => rw [hcls] at h; simp at h
      | some td =>
        obtain ⟨ty, delta⟩ := td
        rw [hck] at h
        cases hcls : classify p s with
        | none => rw [hcls] at h; simp at h
        | some td2 =>
          obtain ⟨ty2, delta2⟩ := td2
          rw [hcls] at h
          simp only [Option.map_some', Option.some.injEq, Prod.mk.injEq] at h
          simp [ckDiffStep, hfind, hck, hcls, eventAbs, h.1, h.2]
  have htcg : ∀ p, (tcgClassify p s).map (fun td => (semanticKind td.1, td.2))
      = (ckClassify p s).map (fun td => (semanticKind td.1, td.2)) := by
    intro p
    unfold tcgClassify ckClassify
    cases hsa : s.available <;> cases hpa : p.available <;>
      by_cases h3 : |s.price - p.price| ≥ 1/100 <;>
        simp [hsa, hpa, h3] <;> rfl
  have hls : ∀ p, (lsClassify p s).map (fun td => (semanticKind td.1, td.2))
      = (ckClassify p s).map (fun td => (semanticKind td.1, td.2)) := by
    intro p
    unfold lsClassify ckClassify
    cases hsa : s.available <;> cases hpa : p.available <;>
      by_cases h3 : |s.price - p.price| ≥ 1/100 <;>
        simp [hsa, hpa, h3] <;> rfl
  have hbb : ∀ p, (bbClassify p s).map (fun td => (semanticKind td.1, td.2))
      = (ckClassify p s).map (fun td => (semanticKind td.1, td.2)) := by
    intro p
    unfold bbClassify ckClassify
    cases hsa : s.available <;> cases hpa : p.available <;>
      by_cases h3 : |s.price - p.price| ≥ 1/100 <;>
        simp [hsa, hpa, h3] <;> rfl
  refine ⟨?_, ?_, ?_⟩
  · exact main tcgClassify "tcgplayer_listing" htcg rfl _ rfl
  · exact main lsClassify "store_listing" hls rfl _ rfl
  · intro hurl
    refine main bbClassify "big_box_listing" hbb rfl _ ?_
    unfold bbDiffStep
    rw [hurl]

/-- Claim C7 counterexample: the big-box step keys its cache by
snapshot.url while Card Kingdom keys by sku.oracle_id, so for a snapshot
whose url differs from its oracle id, with the previous snapshot cached
under the oracle id, Card Kingdom emits a restock while big-box emits a
fresh listing — the watchers do not produce the same events for every
cache state and snapshot. -/
theorem watcher_diff_divergence :
    (ckDiffStep [("sku-1", sampleSnap 10 false)] (sampleSnap 10 true)).1.map
        (fun e => semanticKind e.eventType) = [some EventKind.restock]
    ∧ (bbDiffStep [("sku-1", sampleSnap 10 false)] (sampleSnap 10 true)).1.map
        (fun e => semanticKind e.eventType) = [some EventKind.newListing]
    ∧ (sampleSnap 10 true).sku.oracleId ≠ (sampleSnap 10 true).url := by
  exact ⟨rfl, rfl, by decide⟩

/-- Witness for the amended C7 at a concrete big-box snapshot whose url
equals its oracle id. -/
theorem watchers_diff_equivalent_witness :
    snapUrlKey.url = snapUrlKey.sku.oracleId
    ∧ ((bbDiffStep [] snapUrlKey).1.map eventAbs
        = (ckDiffStep [] snapUrlKey).1.map eventAbs
      ∧ (bbDiffStep [] snapUrlKey).2 = (ckDiffStep [] snapUrlKey).2) := by
  exact ⟨rfl, (watchers_diff_equivalent [] snapUrlKey).2.2 rfl⟩

/-- The fractional part of a matched Card Kingdom price group is nonnegative. -/
theorem ckFracPart_nonneg (l : List Char) : 0 ≤ ckFracPart l := by
  unfold ckFracPart
  split
  · split_ifs <;> positivity
  · split_ifs <;> positivity
  · positivity

/-- The value of a matched big-box price group is nonnegative. -/
theorem bbGroupVal_nonneg (ds l : List Char) : 0 ≤ bbGroupVal ds l := by
  unfold bbGroupVal
  split <;> positivity

/-- Any price the Card Kingdom regex search finds is nonnegative. -/
theorem ckSearchPrice_nonneg (cs : List Char) :
    ∀ v, ckSearchPrice cs = some v → 0 ≤ v := by
  induction cs with
  | nil => intro v h; cases h
  | cons c rest ih =>
    intro v h
    by_cases hd : c.isDigit
    · simp only [ckSearchPrice, if_pos hd, Option.some.injEq] at h
      rw [← h]
      exact add_nonneg (Nat.cast_nonneg _) (ckFracPart_nonneg _)
    · simp only [ckSearchPrice, if_neg hd] at h
      exact ih v h

/-- Any price the big-box regex search finds is nonnegative. -/
theorem bbSearchPrice_nonneg (cs : List Char) :
    ∀ v, bbSearchPrice cs = some v → 0 ≤ v := by
  induction cs with
  | nil => intro v h; cases h
  | cons c rest ih =>
    intro v h
    by_cases hc : c = '$'
    · simp only [bbSearchPrice, if_pos hc] at h
      cases rest with
      | nil => cases h
      | cons d tl =>
        by_cases hd : d.isDigit
        · simp only [if_pos hd, Option.some.injEq] at h
          rw [← h]
          exact bbGroupVal_nonneg _ _
        · simp only [if_neg hd] at h
          exact ih v h
    · simp only [bbSearchPrice, if_neg hc] at h
      exact ih v h

/-- With no digit in the text the Card Kingdom search matches nothing. -/
theorem ckSearchPrice_no_digit (cs : List Char)
    (h : ∀ c ∈ cs, c.isDigit = false) : ckSearchPrice cs = none := by
  induction cs with
  | nil => rfl
  | cons c rest ih =>
    have hc := h c (List.mem_cons_self c rest)
    simp only [ckSearchPrice, hc, Bool.false_eq_true, if_false]
    exact ih (fun x hx => h x (List.mem_cons_of_mem _ hx))

/-- With no digit in the text the big-box search matches nothing. -/
theorem bbSearchPrice_no_digit (cs : List Char)
    (h : ∀ c ∈ cs, c.isDigit = false) : bbSearchPrice cs = none := by
  induction cs with
  | nil => rfl
  | cons c rest ih =>
    have ihr := ih (fun x hx => h x (List.mem_cons_of_mem _ hx))
    by_cases hc : c = '$'
    · simp only [bbSearchPrice, if_pos hc]
      cases rest with
      | nil => rfl
      | cons d tl =>
        have hd := h d (List.mem_cons_of_mem _ (List.mem_cons_self d tl))
        simp only [hd, Bool.false_eq_true, if_false]
        exact ihr
    · simp only [bbSearchPrice, if_neg hc]
      exact ihr

/-- card_kingdom._extract_price is total and nonnegative on every input. -/
theorem ckExtractPrice_nonneg (raw : Option String) : 0 ≤ ckExtractPrice raw := by
  cases raw with
  | none => exact le_refl 0
  | some s =>
    by_cases hs : s = ""
    · simp [ckExtractPrice, hs]
    · simp only [ckExtractPrice, if_neg hs]
      cases hsr : ckSearchPrice (s.data.filter (fun c => c ≠ ',')) with
      | none => exact le_refl 0
      | some v => exact ckSearchPrice_nonneg _ v hsr

/-- big_box._extract_price is total and nonnegative on every input. -/
theorem bbExtractPrice_nonneg (html : String) : 0 ≤ bbExtractPrice html := by
  simp only [bbExtractPrice]
  cases hsr : bbSearchPrice html.data with
  | none => exact le_refl 0
  | some v => exact bbSearchPrice_nonneg _ v hsr

/-- A string with no digit parses to price 0.0 (card_kingdom). -/
theorem ckExtractPrice_no_digit (s : String)
    (h : ∀ c ∈ s.data, c.isDigit = false) : ckExtractPrice (some s) = 0 := by
  by_cases hs : s = ""
  · simp [ckExtractPrice, hs]
  · have hnone : ckSearchPrice (List.filter (fun c => !decide (c = ',')) s.data)
        = none :=
      ckSearchPrice_no_digit _ (fun c hc => h c (List.mem_of_mem_filter hc))
    simp [ckExtractPrice, hs, hnone]

/-- A page with no digit parses to price 0.0 (big_box). -/
theorem bbExtractPrice_no_digit (html : String)
    (h : ∀ c ∈ html.data, c.isDigit = false) : bbExtractPrice html = 0 := by
  simp [bbExtractPrice, bbSearchPrice_no_digit _ h]

/-- Claim C10 (amended): price extraction is total and never raises — for
every raw input (None, empty, or digit-free text included) both
_extract_price variants return a nonnegative rational, 0.0 when nothing
parses; such a zero-price snapshot passes every max-price filter whose
threshold is nonnegative, and diffs against a later real price as a
price-change event with delta equal to that price (from 0.0), provided the
delta reaches the 0.01 threshold. -/
theorem extract_price_total_nonneg_zero :
    (∀ raw, 0 ≤ ckExtractPrice raw)
    ∧ (∀ html, 0 ≤ bbExtractPrice html)
    ∧ ckExtractPrice none = 0
    ∧ ckExtractPrice (some "") = 0
    ∧ (∀ s, (∀ c ∈ s.data, c.isDigit = false) → ckExtractPrice (some s) = 0)
    ∧ (∀ html, (∀ c ∈ html.data, c.isDigit = false) → bbExtractPrice html = 0)
    ∧ (∀ (w : WishlistEntry) (price m : ℚ), w.maxPrice = some m → 0 ≤ m →
        price = 0 → overMaxPrice w price = false)
    ∧ (∀ (cache : SnapCache) (p s : ListingSnapshot),
        cacheFind cache s.sku.oracleId = some p → p.price = 0 →
        s.available = p.available → (1 : ℚ)/100 ≤ |s.price - p.price| →
        (ckDiffStep cache s).1
          = [{ snapshot := s, previousSnapshot := some p,
               eventType := "price_change",
               deltaPrice := some (s.price - p.price) }]) := by
  refine ⟨ckExtractPrice_nonneg, bbExtractPrice_nonneg, rfl, rfl,
    ckExtractPrice_no_digit, bbExtractPrice_no_digit, ?_, ?_⟩
  · intro w price m hm hm0 hp
    subst hp
    simp [overMaxPrice, hm]
    exact hm0
  · intro cache p s hfind hp hav h3
    have h3b : (100 : ℚ)⁻¹ ≤ |s.price - p.price| := by
      simpa using h3
    simp [ckDiffStep, hfind, ckClassify, hav, h3b]

/-- Claim C10 counterexample: a zero-price snapshot does not satisfy every
max-price filter in the Decision Engine — an entry whose max price is the
(unvalidated) negative value -1 filters the zero-price snapshot out, and
evaluate yields no Decision for it. -/
theorem zero_price_filtered_by_negative_max :
    ckExtractPrice (some "no price here") = 0
    ∧ (eventAt 0).snapshot.price = 0
    ∧ entryNegMax.maxPrice = some (-1)
    ∧ evaluate [("sku-1", [entryNegMax])] (eventAt 0) = [] := by
  refine ⟨ckExtractPrice_no_digit _ (by decide), rfl, rfl, ?_⟩
  decide
